import Mathlib

/-!
Verification development for the stash-duplicate-finder repository.

The definitions below are a shallow embedding of the duplicate-detection
engine in `src/main.py`: the scene data model, the four grouping
strategies (`find_duplicates_by_stashid`, `find_duplicates_by_name`,
`find_duplicates_by_oshash`, `find_duplicates_by_phash`), the strategy
dispatch of the `/duplicates/{duplicate_type}` route, and the
configuration check of the `/` route.

Python dictionaries preserve insertion order, so grouping dictionaries
are embedded as association lists (`List (String × List Scene)`) to
which `appendGroup` appends in the same order the code inserts.
-/

set_option maxHeartbeats 1000000

/-- A fingerprint dictionary `{type, value}` as consumed by the engine;
the code reads both keys with `.get`, so either may be absent. -/
structure Fingerprint where
  type : Option String
  value : Option String
deriving DecidableEq, Repr

/-- A file dictionary; the engine only reads `file.get("fingerprints", [])`,
so the passthrough metadata is not modelled and an absent key is the
empty list. -/
structure FileRecord where
  fingerprints : List Fingerprint
deriving DecidableEq, Repr

/-- The `Scene` pydantic model of `src/main.py`. Each element of
`stash_ids` stands for one dictionary lookup `.get("stash_id")`
(`none` when the key is absent). -/
structure Scene where
  id : String
  title : String
  stash_ids : List (Option String)
  files : List FileRecord
deriving DecidableEq, Repr

/-- The list comprehension of `find_duplicates_by_stashid` (line 119):
`[d["stash_id"] for d in scene.stash_ids if d.get("stash_id")]` — Python
truthiness drops absent keys and empty strings. The redundant inner
`if stash_id:` check (line 121) never removes anything further. -/
def sceneStashIds (scene : Scene) : List String :=
  (scene.stash_ids.filterMap (fun o => o)).filter (fun s => s ≠ "")

/-- The operation `groups[key].append(scene)` on a `defaultdict(list)`: append to the
existing bucket, or create a new bucket at the end (insertion order). -/
def appendGroup : List (String × List Scene) → String → Scene → List (String × List Scene)
  | [], k, s => [(k, [s])]
  | (k2, g) :: rest, k, s =>
    if k2 = k then (k2, g ++ [s]) :: rest else (k2, g) :: appendGroup rest k s

/-- Reading `groups[key]` from the association list (a missing key reads
as the empty bucket of the `defaultdict`). -/
def lookupGroup : List (String × List Scene) → String → List Scene
  | [], _ => []
  | (k2, g) :: rest, k => if k2 = k then g else lookupGroup rest k

/-- Append one scene to the buckets of all its keys, in key order. -/
def addSceneKeys (gs : List (String × List Scene)) (keys : List String) (s : Scene) :
    List (String × List Scene) :=
  keys.foldl (fun acc k => appendGroup acc k s) gs

/-- The accumulation loop shared by the grouping strategies: scan the
scene list in order and append each scene to the bucket of each of its
keys. -/
def buildGroups (f : Scene → List String) (scenes : List Scene) : List (String × List Scene) :=
  scenes.foldl (fun acc s => addSceneKeys acc (f s) s) []

/-- Embeds `find_duplicates_by_stashid` (lines 114-125): bucket scenes by each
truthy stash id, then keep only buckets with more than one entry. -/
def find_duplicates_by_stashid (scenes : List Scene) : List (String × List Scene) :=
  (buildGroups sceneStashIds scenes).filter (fun p => p.2.length > 1)

/-- Drop leading whitespace characters, as one side of the Python
method `str.strip()`. -/
def dropLeadingWS : List Char → List Char
  | [] => []
  | c :: rest => if c.isWhitespace then dropLeadingWS rest else c :: rest

/-- The Python method `str.strip()` on the character list: drop whitespace from
both ends. -/
def pyStrip (l : List Char) : List Char :=
  List.reverse (dropLeadingWS (List.reverse (dropLeadingWS l)))

/-- Embeds `scene.title.lower().strip()` (line 133): lowercase every character,
then strip surrounding whitespace. -/
def normalizeTitle (t : String) : String := String.mk (pyStrip (t.data.map Char.toLower))

/-- The keys a scene contributes in the exact-bucketing phase of
`find_duplicates_by_name` (lines 131-134): none when the title is the
empty string (Python falsy), otherwise its normalized form. -/
def titleKeys (scene : Scene) : List String :=
  if scene.title = "" then [] else [normalizeTitle scene.title]

/-- The `title_groups` dictionary of `find_duplicates_by_name`. -/
def titleGroups (scenes : List Scene) : List (String × List Scene) :=
  buildGroups titleKeys scenes

/-- Longest-common-subsequence recursion, fuelled so that the recursion
is structural (the fuel strictly dominates the total remaining length,
so it never runs out when seeded by `lcsLen`). -/
def lcsAux : Nat → List Char → List Char → Nat
  | 0, _, _ => 0
  | _ + 1, [], _ => 0
  | _ + 1, _ :: _, [] => 0
  | fuel + 1, a :: as, b :: bs =>
    if a = b then lcsAux fuel as bs + 1
    else max (lcsAux fuel (a :: as) bs) (lcsAux fuel as (b :: bs))

/-- Length of a longest common subsequence; the InDel distance of
`rapidfuzz` is `l1 + l2 - 2 * lcs`. -/
def lcsLen (l1 l2 : List Char) : Nat := lcsAux (l1.length + l2.length) l1 l2

/-- Embeds `fuzz.ratio(s1, s2)` of `rapidfuzz` as an exact rational: the
normalized InDel similarity on a 0-100 scale,
`100 * (1 - (l1 + l2 - 2 * lcs) / (l1 + l2)) = 200 * lcs / (l1 + l2)`,
and `100` when both strings are empty. -/
def ratioQ (s1 s2 : String) : ℚ :=
  if s1.length + s2.length = 0 then 100
  else ((200 * lcsLen s1.data s2.data : ℕ) : ℚ) / ((s1.length + s2.length : ℕ) : ℚ)

/-- The threshold test `fuzz.ratio(title1, title2) > 85` of line 153-154,
carried out in exact integer arithmetic. -/
def ratioGt85 (s1 s2 : String) : Bool :=
  if s1.length + s2.length = 0 then true
  else 200 * lcsLen s1.data s2.data > 85 * (s1.length + s2.length)

/-- The inner loop of `find_duplicates_by_name` (lines 148-156): scan the
titles after `title1`, skip consumed ones, and on a ratio above 85 merge
the whole bucket of `title2` into the group and mark `title2` consumed. -/
def mergeScan (t1 : String) (tg : List (String × List Scene)) :
    List String → List Scene → List String → List Scene × List String
  | [], group, processed => (group, processed)
  | t2 :: rest, group, processed =>
    if t2 ∈ processed then mergeScan t1 tg rest group processed
    else if ratioGt85 t1 t2 then
      mergeScan t1 tg rest (group ++ lookupGroup tg t2) (processed ++ [t2])
    else mergeScan t1 tg rest group processed

/-- The outer loop of `find_duplicates_by_name` (lines 142-160): each
unconsumed title seeds a group from its own bucket, runs the merge scan
over the later titles, keeps the group only when it has more than one
member, and is then marked consumed itself. -/
def fuzzyLoop (tg : List (String × List Scene)) :
    List String → List String → List (String × List Scene) → List (String × List Scene)
  | [], _, fuzzy => fuzzy
  | t1 :: rest, processed, fuzzy =>
    if t1 ∈ processed then fuzzyLoop tg rest processed fuzzy
    else
      let res := mergeScan t1 tg rest (lookupGroup tg t1) processed
      fuzzyLoop tg rest (res.2 ++ [t1])
        (if res.1.length > 1 then fuzzy ++ [(t1, res.1)] else fuzzy)

/-- Embeds `find_duplicates_by_name` (lines 127-162). -/
def find_duplicates_by_name (scenes : List Scene) : List (String × List Scene) :=
  fuzzyLoop (titleGroups scenes) ((titleGroups scenes).map Prod.fst) [] []

/-- The fingerprint keys one scene contributes (lines 168-174 and
182-188): every fingerprint of any of its files whose `type` equals the
requested kind and whose `value` is present and non-empty (`if oshash:`). -/
def sceneFingerprintValues (kind : String) (scene : Scene) : List String :=
  scene.files.flatMap (fun f =>
    f.fingerprints.filterMap (fun fp =>
      if fp.type = some kind then
        match fp.value with
        | some v => if v = "" then none else some v
        | none => none
      else none))

/-- The grouping shared verbatim by `find_duplicates_by_oshash` and
`find_duplicates_by_phash`: bucket by fingerprint value, keep buckets
with more than one entry. -/
def find_duplicates_by_fingerprint (kind : String) (scenes : List Scene) :
    List (String × List Scene) :=
  (buildGroups (sceneFingerprintValues kind) scenes).filter (fun p => p.2.length > 1)

/-- Embeds `find_duplicates_by_oshash` (lines 164-176). -/
def find_duplicates_by_oshash (scenes : List Scene) : List (String × List Scene) :=
  find_duplicates_by_fingerprint ("oshash") scenes

/-- Embeds `find_duplicates_by_phash` (lines 178-190). -/
def find_duplicates_by_phash (scenes : List Scene) : List (String × List Scene) :=
  find_duplicates_by_fingerprint ("phash") scenes

/-- A FastAPI `HTTPException` as raised by the dispatch route. -/
structure HTTPErr where
  status_code : Nat
  detail : String
deriving DecidableEq, Repr

/-- The strategy dispatch of the `/duplicates/{duplicate_type}` route
(lines 240-253): the string-keyed conditional chain over the four known
selectors, with its method display name; any other selector raises
`HTTPException(status_code=404, detail="Duplicate type not found")`. -/
def find_duplicates (duplicate_type : String) (scenes : List Scene) :
    Except HTTPErr (String × List (String × List Scene)) :=
  if duplicate_type = "stashid" then Except.ok (("Stash ID"), find_duplicates_by_stashid scenes)
  else if duplicate_type = "name" then
    Except.ok (("Name (Fuzzy Match)"), find_duplicates_by_name scenes)
  else if duplicate_type = "oshash" then Except.ok (("OSHASH"), find_duplicates_by_oshash scenes)
  else if duplicate_type = "phash" then Except.ok (("PHASH"), find_duplicates_by_phash scenes)
  else Except.error ⟨404, "Duplicate type not found"⟩

/-- The stored configuration (`StashConfig` in `src/main.py`). -/
structure StashConfig where
  stash_endpoint : String
  api_key : Option String
deriving DecidableEq, Repr

/-- The placeholder endpoint written by `get_config` when no
configuration file exists (line 44) and tested by the `/` route
(line 198). -/
def defaultEndpoint : String := "http://localhost:9999/graphql"

/-- Embeds `get_config` (lines 40-51): the stored file contents when present,
otherwise the placeholder default. -/
def get_config (stored : Option StashConfig) : StashConfig :=
  match stored with
  | some c => c
  | none => { stash_endpoint := defaultEndpoint, api_key := some ("") }

/-- What a request handler does before rendering: redirect to the
settings page, or attempt the catalog fetch. -/
inductive BoundaryAction where
  | redirectToSettings
  | attemptFetch
deriving DecidableEq, Repr

/-- The configuration check of the `/` route (lines 195-202): redirect
to `/settings` when the endpoint is falsy or still the placeholder,
otherwise fetch. -/
def rootAction (config : StashConfig) : BoundaryAction :=
  if config.stash_endpoint = "" ∨ config.stash_endpoint = defaultEndpoint then
    BoundaryAction.redirectToSettings
  else BoundaryAction.attemptFetch

/-- The `/duplicates/{duplicate_type}` route (lines 222-228) performs no
configuration check at all: it calls `fetch_all_scenes` unconditionally. -/
def duplicatesAction (_config : StashConfig) : BoundaryAction :=
  BoundaryAction.attemptFetch

/-- Member order a group would have if it followed the order of
encounter in the source list: positions of consecutive members never
decrease. -/
def encounterOrdered (source : List Scene) : List Scene → Bool
  | [] => true
  | [_] => true
  | a :: b :: rest =>
    decide (source.indexOf a ≤ source.indexOf b) && encounterOrdered source (b :: rest)

/-! ## Concrete scenes and buckets used to instantiate the theorems -/

/-- Bucket list with two titles within ratio 87.5 of each other and one
unrelated title. -/
def tgW : List (String × List Scene) :=
  [(("abcdefgh"), [⟨("w1"), ("abcdefgh"), [], []⟩]),
   (("abcdefgx"), [⟨("w2"), ("abcdefgx"), [], []⟩]),
   (("zz"), [⟨("w3"), ("zz"), [], []⟩])]

/-- Two scenes sharing the stash id `dup`. -/
def c2A : Scene := ⟨("1"), (""), [some ("dup")], []⟩

/-- Second scene sharing the stash id `dup`. -/
def c2B : Scene := ⟨("2"), (""), [some ("dup")], []⟩

/-- One scene with two files carrying the same `oshash` value. -/
def c3S : Scene :=
  ⟨("1"), ("t"), [],
   [⟨[⟨some ("oshash"), some ("xyz")⟩]⟩, ⟨[⟨some ("oshash"), some ("xyz")⟩]⟩]⟩

/-- Scene whose title is whitespace-only (Python-truthy but blank). -/
def c5A : Scene := ⟨("1"), (" "), [], []⟩

/-- Second scene whose title is whitespace-only. -/
def c5B : Scene := ⟨("2"), (" "), [], []⟩

/-- Scene with a mixed-case title. -/
def c5W1 : Scene := ⟨("1"), ("Movie"), [], []⟩

/-- Scene whose title matches `c5W1` after normalization. -/
def c5W2 : Scene := ⟨("2"), ("movie "), [], []⟩

/-- First scene of the fuzzy-order counterexample. -/
def c6s1 : Scene := ⟨("1"), ("abcdefghij"), [], []⟩

/-- Second scene: its title is within the fuzzy threshold of the others. -/
def c6s2 : Scene := ⟨("2"), ("abcdefghik"), [], []⟩

/-- Third scene: exact title match with `c6s1`. -/
def c6s3 : Scene := ⟨("3"), ("abcdefghij"), [], []⟩

/-- Scene sharing stash id `x` with `c6wB`. -/
def c6wA : Scene := ⟨("1"), (""), [some ("x")], []⟩

/-- Scene sharing stash id `x` with `c6wA`. -/
def c6wB : Scene := ⟨("2"), (""), [some ("x")], []⟩

/-- Scene whose only stash id is the whitespace-only string. -/
def c7bA : Scene := ⟨("1"), (""), [some (" ")], []⟩

/-- Second scene whose only stash id is the whitespace-only string. -/
def c7bB : Scene := ⟨("2"), (""), [some (" ")], []⟩

/-- Scene with the two stash ids `idA` and `idB`. -/
def c7wA : Scene := ⟨("1"), (""), [some ("idA"), some ("idB")], []⟩

/-- Second scene with the two stash ids `idA` and `idB`. -/
def c7wB : Scene := ⟨("2"), (""), [some ("idA"), some ("idB")], []⟩

/-- Scene listing the same stash id twice. -/
def c9S : Scene := ⟨("1"), (""), [some ("dd"), some ("dd")], []⟩

/-! ## Association-list lemmas for the grouping accumulator -/

theorem lookup_appendGroup (gs : List (String × List Scene)) (k2 : String) (s : Scene)
    (k : String) :
    lookupGroup (appendGroup gs k2 s) k = lookupGroup gs k ++ (if k2 = k then [s] else []) := by
  induction gs with
  | nil =>
    by_cases h : k2 = k <;> simp [appendGroup, lookupGroup, h]
  | cons hd tl ih =>
    obtain ⟨kh, g⟩ := hd
    by_cases h1 : kh = k2
    · subst h1
      by_cases h2 : kh = k
      · subst h2
        simp [appendGroup, lookupGroup]
      · simp [appendGroup, lookupGroup, h2]
    · by_cases h2 : kh = k
      · have h3 : ¬k2 = k := fun hh => h1 (h2.trans hh.symm)
        have h4 : ¬k = k2 := fun hh => h1 (h2.trans hh)
        simp [appendGroup, lookupGroup, h1, h2, h3, h4]
      · simp [appendGroup, lookupGroup, h1, h2, ih]

theorem lookup_addSceneKeys (keys : List String) (gs : List (String × List Scene)) (s : Scene)
    (k : String) :
    lookupGroup (addSceneKeys gs keys s) k =
      lookupGroup gs k ++ List.replicate (keys.count k) s := by
  induction keys generalizing gs with
  | nil => simp [addSceneKeys]
  | cons kh tl ih =>
    have step : addSceneKeys gs (kh :: tl) s = addSceneKeys (appendGroup gs kh s) tl s := rfl
    rw [step, ih, lookup_appendGroup, List.count_cons]
    by_cases h : kh = k
    · simp [h, List.replicate_succ, List.append_assoc]
    · simp [h]

theorem lookup_foldl_addSceneKeys (f : Scene → List String) (scenes : List Scene)
    (gs : List (String × List Scene)) (k : String) :
    lookupGroup (scenes.foldl (fun acc s => addSceneKeys acc (f s) s) gs) k =
      lookupGroup gs k ++ scenes.flatMap (fun s => List.replicate ((f s).count k) s) := by
  induction scenes generalizing gs with
  | nil => simp
  | cons s rest ih =>
    simp only [List.foldl_cons, List.flatMap_cons]
    rw [ih, lookup_addSceneKeys, List.append_assoc]

theorem lookup_buildGroups (f : Scene → List String) (scenes : List Scene) (k : String) :
    lookupGroup (buildGroups f scenes) k =
      scenes.flatMap (fun s => List.replicate ((f s).count k) s) := by
  have h := lookup_foldl_addSceneKeys f scenes [] k
  simpa [buildGroups, lookupGroup] using h

theorem keys_appendGroup (gs : List (String × List Scene)) (k : String) (s : Scene) :
    (appendGroup gs k s).map Prod.fst =
      if k ∈ gs.map Prod.fst then gs.map Prod.fst else gs.map Prod.fst ++ [k] := by
  induction gs with
  | nil => simp [appendGroup]
  | cons hd tl ih =>
    obtain ⟨kh, g⟩ := hd
    by_cases h : kh = k
    · simp [appendGroup, h]
    · have h2 : ¬k = kh := fun hh => h hh.symm
      by_cases hm : k ∈ tl.map Prod.fst <;>
        simp [appendGroup, h, h2, hm, ih]

theorem nodupKeys_appendGroup (gs : List (String × List Scene)) (k : String) (s : Scene)
    (h : (gs.map Prod.fst).Nodup) : ((appendGroup gs k s).map Prod.fst).Nodup := by
  rw [keys_appendGroup]
  by_cases hm : k ∈ gs.map Prod.fst
  · simpa [hm] using h
  · simp [hm, List.nodup_append, h]

theorem nodupKeys_addSceneKeys (keys : List String) (gs : List (String × List Scene)) (s : Scene)
    (h : (gs.map Prod.fst).Nodup) : ((addSceneKeys gs keys s).map Prod.fst).Nodup := by
  induction keys generalizing gs with
  | nil => exact h
  | cons kh tl ih => exact ih (appendGroup gs kh s) (nodupKeys_appendGroup gs kh s h)

theorem nodupKeys_buildGroups (f : Scene → List String) (scenes : List Scene) :
    ((buildGroups f scenes).map Prod.fst).Nodup := by
  have aux : ∀ (l : List Scene) (gs : List (String × List Scene)),
      (gs.map Prod.fst).Nodup →
      ((l.foldl (fun acc s => addSceneKeys acc (f s) s) gs).map Prod.fst).Nodup := by
    intro l
    induction l with
    | nil => intro gs h; exact h
    | cons s rest ih =>
      intro gs h
      exact ih (addSceneKeys gs (f s) s) (nodupKeys_addSceneKeys (f s) gs s h)
  exact aux scenes [] (by simp)

theorem lookup_of_mem (gs : List (String × List Scene)) (p : String × List Scene)
    (hn : (gs.map Prod.fst).Nodup) (hp : p ∈ gs) : lookupGroup gs p.1 = p.2 := by
  induction gs with
  | nil => cases hp
  | cons hd tl ih =>
    obtain ⟨kh, g⟩ := hd
    rcases List.mem_cons.mp hp with heq | hmem
    · subst heq
      simp [lookupGroup]
    · have hn2 : (∀ (x : List Scene), (kh, x) ∉ tl) ∧ (tl.map Prod.fst).Nodup := by
        simpa using hn
      have hne : ¬kh = p.1 := by
        intro hh
        exact hn2.1 p.2 (by simpa [hh] using hmem)
      simp only [lookupGroup, if_neg hne]
      exact ih hn2.2 hmem

theorem mem_of_lookup_ne_nil (gs : List (String × List Scene)) (k : String)
    (h : lookupGroup gs k ≠ []) : (k, lookupGroup gs k) ∈ gs := by
  induction gs with
  | nil => exact absurd rfl h
  | cons hd tl ih =>
    obtain ⟨kh, g⟩ := hd
    by_cases hk : kh = k
    · subst hk
      simp only [lookupGroup, if_pos rfl]
      exact List.mem_cons_self _ _
    · simp only [lookupGroup, if_neg hk] at h ⊢
      exact List.mem_cons_of_mem _ (ih h)

theorem mem_lookup_buildGroups (f : Scene → List String) (scenes : List Scene) (k : String)
    (x : Scene) :
    x ∈ lookupGroup (buildGroups f scenes) k ↔ x ∈ scenes ∧ k ∈ f x := by
  rw [lookup_buildGroups]
  simp only [List.mem_flatMap, List.mem_replicate]
  constructor
  · rintro ⟨a, ha, hn, rfl⟩
    exact ⟨ha, by
      by_contra hk
      exact hn (List.count_eq_zero.mpr hk)⟩
  · rintro ⟨hx, hk⟩
    exact ⟨x, hx, fun hz => (List.count_eq_zero.mp hz) hk, rfl⟩

theorem flatMap_replicate_eq_nil (f : Scene → List String) (v : String) (l : List Scene)
    (h : ∀ x ∈ l, (f x).count v = 0) :
    l.flatMap (fun x => List.replicate ((f x).count v) x) = [] := by
  induction l with
  | nil => rfl
  | cons a rest ih =>
    rw [List.flatMap_cons, h a (List.mem_cons_self a rest), ih
      (fun x hx => h x (List.mem_cons_of_mem a hx))]
    rfl

theorem flatMap_replicate_pair (f : Scene → List String) (v : String) (s : Scene)
    (scenes : List Scene) (hmem : s ∈ scenes) (hone : scenes.count s = 1)
    (h2 : (f s).count v = 2) (h0 : ∀ x ∈ scenes, x ≠ s → (f x).count v = 0) :
    scenes.flatMap (fun x => List.replicate ((f x).count v) x) = [s, s] := by
  induction scenes with
  | nil => cases hmem
  | cons a rest ih =>
    by_cases ha : a = s
    · subst ha
      have hczero : rest.count a = 0 := by
        rw [List.count_cons] at hone
        simpa using hone
      have hnil : rest.flatMap (fun x => List.replicate ((f x).count v) x) = [] := by
        refine flatMap_replicate_eq_nil f v rest (fun x hx => ?_)
        refine h0 x (List.mem_cons_of_mem a hx) (fun he => ?_)
        exact (List.count_eq_zero.mp hczero) (he ▸ hx)
      rw [List.flatMap_cons, h2, hnil]
      rfl
    · have h0a : (f a).count v = 0 :=
        h0 a (List.mem_cons_self a rest) ha
      have hmem2 : s ∈ rest := by
        rcases List.mem_cons.mp hmem with he | hr
        · exact absurd he.symm ha
        · exact hr
      have hone2 : rest.count s = 1 := by
        rw [List.count_cons] at hone
        simpa [ha] using hone
      rw [List.flatMap_cons, h0a,
        ih hmem2 hone2 (fun x hx hxs => h0 x (List.mem_cons_of_mem a hx) hxs)]
      rfl

theorem mem_sceneStashIds_ne_empty (s : Scene) (k : String) (h : k ∈ sceneStashIds s) :
    k ≠ "" := by
  have h2 := (List.mem_filter.mp h).2
  simpa using h2

theorem mem_sceneFingerprintValues_ne_empty (kind : String) (s : Scene) (v : String)
    (h : v ∈ sceneFingerprintValues kind s) : v ≠ "" := by
  rw [sceneFingerprintValues, List.mem_flatMap] at h
  obtain ⟨f, _, hv⟩ := h
  rw [List.mem_filterMap] at hv
  obtain ⟨fp, _, heq⟩ := hv
  split at heq
  · split at heq
    · split at heq
      · cases heq
      · rename_i hv2 _
        cases heq
        assumption
    · cases heq
  · cases heq

theorem ratioGt85_iff (s1 s2 : String) : ratioGt85 s1 s2 = true ↔ 85 < ratioQ s1 s2 := by
  unfold ratioGt85 ratioQ
  by_cases h : s1.length + s2.length = 0
  · simp only [if_pos h]
    norm_num
  · simp only [if_neg h]
    rw [decide_eq_true_iff]
    have hT : (0 : ℚ) < ((s1.length + s2.length : ℕ) : ℚ) := by
      exact_mod_cast Nat.pos_of_ne_zero h
    rw [lt_div_iff₀ hT]
    constructor
    · intro hlt
      push_cast
      exact_mod_cast hlt
    · intro hlt
      push_cast at hlt
      exact_mod_cast hlt

/-! ## Lemmas about the fuzzy-merge loops -/

theorem mergeScan_eq (t1 : String) (tg : List (String × List Scene)) (rest : List String)
    (group : List Scene) (processed : List String) (hnd : rest.Nodup) :
    mergeScan t1 tg rest group processed =
      (group ++
        (rest.filter (fun t2 => decide (t2 ∉ processed) && ratioGt85 t1 t2)).flatMap
          (lookupGroup tg),
       processed ++ rest.filter (fun t2 => decide (t2 ∉ processed) && ratioGt85 t1 t2)) := by
  induction rest generalizing group processed with
  | nil => simp [mergeScan]
  | cons t2 rest2 ih =>
    have hnd2 := List.nodup_cons.mp hnd
    by_cases h1 : t2 ∈ processed
    · have step : mergeScan t1 tg (t2 :: rest2) group processed =
          mergeScan t1 tg rest2 group processed := by
        simp [mergeScan, h1]
      rw [step, ih group processed hnd2.2]
      simp [List.filter_cons, h1]
    · by_cases h2 : ratioGt85 t1 t2 = true
      · have step : mergeScan t1 tg (t2 :: rest2) group processed =
            mergeScan t1 tg rest2 (group ++ lookupGroup tg t2) (processed ++ [t2]) := by
          simp [mergeScan, h1, h2]
        rw [step, ih _ _ hnd2.2]
        have hfilter :
            rest2.filter (fun t => decide (t ∉ processed ++ [t2]) && ratioGt85 t1 t) =
              rest2.filter (fun t => decide (t ∉ processed) && ratioGt85 t1 t) := by
          refine List.filter_congr (fun x hx => ?_)
          have hxne : x ≠ t2 := fun he => hnd2.1 (he ▸ hx)
          by_cases hm : x ∈ processed <;> simp [hm, hxne, List.mem_append]
        rw [hfilter]
        simp [List.filter_cons, h1, h2, List.append_assoc]
      · have step : mergeScan t1 tg (t2 :: rest2) group processed =
            mergeScan t1 tg rest2 group processed := by
          simp [mergeScan, h1, h2]
        rw [step, ih group processed hnd2.2]
        simp [List.filter_cons, h1, h2]

theorem mergeScan_processed_sub (t1 : String) (tg : List (String × List Scene))
    (rest : List String) :
    ∀ (group : List Scene) (processed : List String) (x : String), x ∈ processed →
      x ∈ (mergeScan t1 tg rest group processed).2 := by
  induction rest with
  | nil =>
    intro group processed x hx
    simpa [mergeScan] using hx
  | cons t2 rest2 ih =>
    intro group processed x hx
    by_cases h1 : t2 ∈ processed
    · have step : mergeScan t1 tg (t2 :: rest2) group processed =
          mergeScan t1 tg rest2 group processed := by
        simp [mergeScan, h1]
      rw [step]
      exact ih group processed x hx
    · by_cases h2 : ratioGt85 t1 t2 = true
      · have step : mergeScan t1 tg (t2 :: rest2) group processed =
            mergeScan t1 tg rest2 (group ++ lookupGroup tg t2) (processed ++ [t2]) := by
          simp [mergeScan, h1, h2]
        rw [step]
        exact ih _ _ x (List.mem_append_left _ hx)
      · have step : mergeScan t1 tg (t2 :: rest2) group processed =
            mergeScan t1 tg rest2 group processed := by
          simp [mergeScan, h1, h2]
        rw [step]
        exact ih group processed x hx

theorem mergeScan_fst_mem (t1 : String) (tg : List (String × List Scene))
    (rest : List String) :
    ∀ (group : List Scene) (processed : List String) (x : Scene),
      x ∈ (mergeScan t1 tg rest group processed).1 →
      x ∈ group ∨ ∃ k, x ∈ lookupGroup tg k := by
  induction rest with
  | nil =>
    intro group processed x hx
    left
    simpa [mergeScan] using hx
  | cons t2 rest2 ih =>
    intro group processed x hx
    by_cases h1 : t2 ∈ processed
    · have step : mergeScan t1 tg (t2 :: rest2) group processed =
          mergeScan t1 tg rest2 group processed := by
        simp [mergeScan, h1]
      rw [step] at hx
      exact ih group processed x hx
    · by_cases h2 : ratioGt85 t1 t2 = true
      · have step : mergeScan t1 tg (t2 :: rest2) group processed =
            mergeScan t1 tg rest2 (group ++ lookupGroup tg t2) (processed ++ [t2]) := by
          simp [mergeScan, h1, h2]
        rw [step] at hx
        rcases ih _ _ x hx with hg | hk
        · rcases List.mem_append.mp hg with hg2 | hg2
          · exact Or.inl hg2
          · exact Or.inr ⟨t2, hg2⟩
        · exact Or.inr hk
      · have step : mergeScan t1 tg (t2 :: rest2) group processed =
            mergeScan t1 tg rest2 group processed := by
          simp [mergeScan, h1, h2]
        rw [step] at hx
        exact ih group processed x hx

theorem fuzzyLoop_step (tg : List (String × List Scene)) (t1 : String) (rest : List String)
    (processed : List String) (fuzzy : List (String × List Scene)) (h1 : t1 ∉ processed) :
    fuzzyLoop tg (t1 :: rest) processed fuzzy =
      fuzzyLoop tg rest ((mergeScan t1 tg rest (lookupGroup tg t1) processed).2 ++ [t1])
        (if (mergeScan t1 tg rest (lookupGroup tg t1) processed).1.length > 1 then
          fuzzy ++ [(t1, (mergeScan t1 tg rest (lookupGroup tg t1) processed).1)]
        else fuzzy) := by
  simp [fuzzyLoop, h1]

theorem fuzzyLoop_skip (tg : List (String × List Scene)) (t1 : String) (rest : List String)
    (processed : List String) (fuzzy : List (String × List Scene)) (h1 : t1 ∈ processed) :
    fuzzyLoop tg (t1 :: rest) processed fuzzy = fuzzyLoop tg rest processed fuzzy := by
  simp [fuzzyLoop, h1]

theorem fuzzyLoop_length (tg : List (String × List Scene)) (titles : List String) :
    ∀ (processed : List String) (fuzzy : List (String × List Scene)),
      (∀ p ∈ fuzzy, 1 < p.2.length) →
      ∀ p ∈ fuzzyLoop tg titles processed fuzzy, 1 < p.2.length := by
  induction titles with
  | nil =>
    intro processed fuzzy h p hp
    exact h p (by simpa [fuzzyLoop] using hp)
  | cons t1 rest ih =>
    intro processed fuzzy h p hp
    by_cases h1 : t1 ∈ processed
    · rw [fuzzyLoop_skip tg t1 rest processed fuzzy h1] at hp
      exact ih processed fuzzy h p hp
    · rw [fuzzyLoop_step tg t1 rest processed fuzzy h1] at hp
      refine ih _ _ ?_ p hp
      intro q hq
      by_cases hlen : (mergeScan t1 tg rest (lookupGroup tg t1) processed).1.length > 1
      · rw [if_pos hlen] at hq
        rcases List.mem_append.mp hq with hq2 | hq2
        · exact h q hq2
        · have hq3 : q = (t1, (mergeScan t1 tg rest (lookupGroup tg t1) processed).1) := by
            simpa using hq2
          rw [hq3]
          exact hlen
      · rw [if_neg hlen] at hq
        exact h q hq

theorem fuzzyLoop_keys (tg : List (String × List Scene)) (titles : List String) :
    ∀ (processed : List String) (fuzzy : List (String × List Scene))
      (p : String × List Scene), p ∈ fuzzyLoop tg titles processed fuzzy →
      p ∈ fuzzy ∨ (p.1 ∈ titles ∧ p.1 ∉ processed) := by
  induction titles with
  | nil =>
    intro processed fuzzy p hp
    left
    simpa [fuzzyLoop] using hp
  | cons t1 rest ih =>
    intro processed fuzzy p hp
    by_cases h1 : t1 ∈ processed
    · rw [fuzzyLoop_skip tg t1 rest processed fuzzy h1] at hp
      rcases ih processed fuzzy p hp with h | h
      · exact Or.inl h
      · exact Or.inr ⟨List.mem_cons_of_mem _ h.1, h.2⟩
    · rw [fuzzyLoop_step tg t1 rest processed fuzzy h1] at hp
      rcases ih _ _ p hp with h | h
      · by_cases hlen : (mergeScan t1 tg rest (lookupGroup tg t1) processed).1.length > 1
        · rw [if_pos hlen] at h
          rcases List.mem_append.mp h with h2 | h2
          · exact Or.inl h2
          · have h3 : p = (t1, (mergeScan t1 tg rest (lookupGroup tg t1) processed).1) := by
              simpa using h2
            refine Or.inr ⟨?_, ?_⟩
            · rw [h3]
              exact List.mem_cons_self _ _
            · rw [h3]
              exact h1
        · rw [if_neg hlen] at h
          exact Or.inl h
      · refine Or.inr ⟨List.mem_cons_of_mem _ h.1, fun hpp => ?_⟩
        exact h.2 (List.mem_append_left _
          (mergeScan_processed_sub t1 tg rest (lookupGroup tg t1) processed p.1 hpp))

theorem fuzzyLoop_members (tg : List (String × List Scene)) (titles : List String) :
    ∀ (processed : List String) (fuzzy : List (String × List Scene))
      (p : String × List Scene) (x : Scene),
      p ∈ fuzzyLoop tg titles processed fuzzy → x ∈ p.2 →
      (∃ q ∈ fuzzy, x ∈ q.2) ∨ ∃ k, x ∈ lookupGroup tg k := by
  induction titles with
  | nil =>
    intro processed fuzzy p x hp hx
    left
    exact ⟨p, by simpa [fuzzyLoop] using hp, hx⟩
  | cons t1 rest ih =>
    intro processed fuzzy p x hp hx
    by_cases h1 : t1 ∈ processed
    · rw [fuzzyLoop_skip tg t1 rest processed fuzzy h1] at hp
      exact ih processed fuzzy p x hp hx
    · rw [fuzzyLoop_step tg t1 rest processed fuzzy h1] at hp
      rcases ih _ _ p x hp hx with ⟨q, hq, hxq⟩ | hk
      · by_cases hlen : (mergeScan t1 tg rest (lookupGroup tg t1) processed).1.length > 1
        · rw [if_pos hlen] at hq
          rcases List.mem_append.mp hq with hq2 | hq2
          · exact Or.inl ⟨q, hq2, hxq⟩
          · have hq3 : q = (t1, (mergeScan t1 tg rest (lookupGroup tg t1) processed).1) := by
              simpa using hq2
            rw [hq3] at hxq
            rcases mergeScan_fst_mem t1 tg rest (lookupGroup tg t1) processed x hxq with hg | hg
            · exact Or.inr ⟨t1, hg⟩
            · exact Or.inr hg
        · rw [if_neg hlen] at hq
          exact Or.inl ⟨q, hq, hxq⟩
      · exact Or.inr hk

/-! ## Strategy-level helper lemmas -/

theorem snd_eq_flatMap_of_mem_filtered (f : Scene → List String) (scenes : List Scene)
    (p : String × List Scene)
    (hp : p ∈ (buildGroups f scenes).filter (fun q => q.2.length > 1)) :
    p.2 = scenes.flatMap (fun s => List.replicate ((f s).count p.1) s) := by
  have hmem := (List.mem_filter.mp hp).1
  rw [← lookup_of_mem _ p (nodupKeys_buildGroups f scenes) hmem, lookup_buildGroups]

theorem pair_mem_filtered (f : Scene → List String) (s : Scene) (scenes : List Scene)
    (v : String) (hmem : s ∈ scenes) (hone : scenes.count s = 1)
    (h2 : (f s).count v = 2) (h0 : ∀ x ∈ scenes, x ≠ s → v ∉ f x) :
    (v, [s, s]) ∈ (buildGroups f scenes).filter (fun p => p.2.length > 1) := by
  have hlookup : lookupGroup (buildGroups f scenes) v = [s, s] := by
    rw [lookup_buildGroups]
    exact flatMap_replicate_pair f v s scenes hmem hone h2
      (fun x hx hxs => List.count_eq_zero.mpr (h0 x hx hxs))
  have hmem2 : (v, [s, s]) ∈ buildGroups f scenes := by
    have h3 := mem_of_lookup_ne_nil (buildGroups f scenes) v (by rw [hlookup]; simp)
    rwa [hlookup] at h3
  refine List.mem_filter.mpr ⟨hmem2, ?_⟩
  simp

theorem key_ne_empty_of_mem_filtered (f : Scene → List String)
    (hf : ∀ s k, k ∈ f s → k ≠ "") (scenes : List Scene) (p : String × List Scene)
    (hp : p ∈ (buildGroups f scenes).filter (fun q => q.2.length > 1)) : p.1 ≠ "" := by
  have hmem := (List.mem_filter.mp hp).1
  have hlen : 1 < p.2.length := by
    have := (List.mem_filter.mp hp).2
    simpa using this
  have hlook : lookupGroup (buildGroups f scenes) p.1 = p.2 :=
    lookup_of_mem _ p (nodupKeys_buildGroups f scenes) hmem
  have hne : p.2 ≠ [] := by
    intro hh
    rw [hh] at hlen
    simp at hlen
  obtain ⟨x, hx⟩ := List.exists_mem_of_ne_nil p.2 hne
  have hx2 : x ∈ lookupGroup (buildGroups f scenes) p.1 := by rw [hlook]; exact hx
  have hx3 := (mem_lookup_buildGroups f scenes p.1 x).mp hx2
  exact hf x p.1 hx3.2

theorem scene_mem_group_of_mem_filtered (f : Scene → List String) (scenes : List Scene)
    (s : Scene) (k : String) (l : List Scene) (hs : s ∈ scenes)
    (hp : (k, l) ∈ (buildGroups f scenes).filter (fun q => q.2.length > 1))
    (hk : k ∈ f s) : s ∈ l := by
  have hmem := (List.mem_filter.mp hp).1
  have hlook : lookupGroup (buildGroups f scenes) k = l :=
    lookup_of_mem _ (k, l) (nodupKeys_buildGroups f scenes) hmem
  rw [← hlook]
  exact (mem_lookup_buildGroups f scenes k s).mpr ⟨hs, hk⟩

theorem stashid_groups_gt1 (scenes : List Scene) :
    ∀ p ∈ find_duplicates_by_stashid scenes, 1 < p.2.length := by
  intro p hp
  have h := (List.mem_filter.mp hp).2
  simpa using h

theorem fingerprint_groups_gt1 (kind : String) (scenes : List Scene) :
    ∀ p ∈ find_duplicates_by_fingerprint kind scenes, 1 < p.2.length := by
  intro p hp
  have h := (List.mem_filter.mp hp).2
  simpa using h

theorem name_groups_gt1 (scenes : List Scene) :
    ∀ p ∈ find_duplicates_by_name scenes, 1 < p.2.length := by
  intro p hp
  rw [find_duplicates_by_name] at hp
  exact fuzzyLoop_length (titleGroups scenes) ((titleGroups scenes).map Prod.fst) [] []
    (by simp) p hp

/-! ## Claim theorems -/

/-- C1: in fuzzy-name grouping, for every pair of distinct normalized
titles T1 (outer seed) and T2 (later, not yet consumed), the entire
bucket of T2 is merged into the group of T1 if and only if the similarity ratio of
T1 and T2 strictly exceeds 85; merged titles are marked consumed
(appended to `processed`), and a consumed title is never used as a group
seed (it contributes no key to the output) nor compared again (the filter of the
merge scan excludes it). -/
theorem claim_C1_fuzzy_merge :
    (∀ s1 s2 : String, ratioGt85 s1 s2 = true ↔ 85 < ratioQ s1 s2)
    ∧ (∀ (t1 : String) (tg : List (String × List Scene)) (rest : List String)
        (group : List Scene) (processed : List String), rest.Nodup →
        mergeScan t1 tg rest group processed =
          (group ++
            (rest.filter (fun t2 => decide (t2 ∉ processed) && ratioGt85 t1 t2)).flatMap
              (lookupGroup tg),
           processed ++ rest.filter (fun t2 => decide (t2 ∉ processed) && ratioGt85 t1 t2)))
    ∧ (∀ (tg : List (String × List Scene)) (titles processed : List String)
        (fuzzy : List (String × List Scene)) (p : String × List Scene),
        p ∈ fuzzyLoop tg titles processed fuzzy →
        p ∈ fuzzy ∨ (p.1 ∈ titles ∧ p.1 ∉ processed)) :=
  ⟨ratioGt85_iff,
   fun t1 tg rest group processed hnd => mergeScan_eq t1 tg rest group processed hnd,
   fun tg titles processed fuzzy p hp => fuzzyLoop_keys tg titles processed fuzzy p hp⟩

/-- Witness for C1: a concrete merge scan over the buckets `tgW` with
seed title `abcdefgh` (ratio with `abcdefgx` is 87.5, above 85; ratio
with `zz` is 0, below 85). -/
theorem claim_C1_fuzzy_merge_witness :
    (["abcdefgx", "zz"] : List String).Nodup ∧
    mergeScan ("abcdefgh") tgW ["abcdefgx", "zz"] (lookupGroup tgW ("abcdefgh")) [] =
      (lookupGroup tgW ("abcdefgh") ++
        ((["abcdefgx", "zz"] : List String).filter
          (fun t2 => decide (t2 ∉ ([] : List String)) && ratioGt85 ("abcdefgh") t2)).flatMap
          (lookupGroup tgW),
       ([] : List String) ++
        (["abcdefgx", "zz"] : List String).filter
          (fun t2 => decide (t2 ∉ ([] : List String)) && ratioGt85 ("abcdefgh") t2)) :=
  ⟨by decide,
   claim_C1_fuzzy_merge.2.1 ("abcdefgh") tgW ["abcdefgx", "zz"]
     (lookupGroup tgW ("abcdefgh")) [] (by decide)⟩

/-- C2: for every input scene list and every selector the dispatch
accepts, every group in the returned mapping has at least 2 member
entries; no group of size 0 or 1 is ever returned. -/
theorem claim_C2_group_size :
    ∀ (duplicate_type : String) (scenes : List Scene) (label : String)
      (groups : List (String × List Scene)),
      find_duplicates duplicate_type scenes = Except.ok (label, groups) →
      ∀ p ∈ groups, 2 ≤ p.2.length := by
  intro t scenes label groups h p hp
  by_cases h1 : t = "stashid"
  · rw [find_duplicates, if_pos h1] at h
    simp only [Except.ok.injEq, Prod.mk.injEq] at h
    rw [← h.2] at hp
    exact stashid_groups_gt1 scenes p hp
  · by_cases h2 : t = "name"
    · rw [find_duplicates, if_neg h1, if_pos h2] at h
      simp only [Except.ok.injEq, Prod.mk.injEq] at h
      rw [← h.2] at hp
      exact name_groups_gt1 scenes p hp
    · by_cases h3 : t = "oshash"
      · rw [find_duplicates, if_neg h1, if_neg h2, if_pos h3] at h
        simp only [Except.ok.injEq, Prod.mk.injEq] at h
        rw [← h.2] at hp
        exact fingerprint_groups_gt1 ("oshash") scenes p hp
      · by_cases h4 : t = "phash"
        · rw [find_duplicates, if_neg h1, if_neg h2, if_neg h3, if_pos h4] at h
          simp only [Except.ok.injEq, Prod.mk.injEq] at h
          rw [← h.2] at hp
          exact fingerprint_groups_gt1 ("phash") scenes p hp
        · rw [find_duplicates, if_neg h1, if_neg h2, if_neg h3, if_neg h4] at h
          cases h

/-- Witness for C2: the identifier strategy on two scenes sharing the
stash id `dup` returns exactly one group, of size 2. -/
theorem claim_C2_group_size_witness :
    find_duplicates ("stashid") [c2A, c2B] =
      Except.ok (("Stash ID"), [(("dup"), [c2A, c2B])]) ∧
    ∀ p ∈ [(("dup"), [c2A, c2B])], 2 ≤ p.2.length :=
  ⟨by rfl,
   claim_C2_group_size ("stashid") [c2A, c2B] ("Stash ID") [(("dup"), [c2A, c2B])] (by rfl)⟩

/-- C3: in fingerprint grouping (both kinds), a single scene whose files
contribute the requested-kind value `v` twice lands twice in the
bucket of `v`; when no other scene shares `v`, the bucket is exactly the scene
repeated twice — size 2, counted by entries, not distinct scenes — and
is returned. -/
theorem claim_C3_fingerprint_multiplicity :
    ∀ (s : Scene) (scenes : List Scene) (v : String),
      s ∈ scenes → scenes.count s = 1 →
      (((sceneFingerprintValues ("oshash") s).count v = 2 →
        (∀ x ∈ scenes, x ≠ s → v ∉ sceneFingerprintValues ("oshash") x) →
        (v, [s, s]) ∈ find_duplicates_by_oshash scenes)
      ∧ ((sceneFingerprintValues ("phash") s).count v = 2 →
        (∀ x ∈ scenes, x ≠ s → v ∉ sceneFingerprintValues ("phash") x) →
        (v, [s, s]) ∈ find_duplicates_by_phash scenes)) := by
  intro s scenes v hmem hone
  constructor
  · intro h2 h0
    exact pair_mem_filtered (sceneFingerprintValues ("oshash")) s scenes v hmem hone h2 h0
  · intro h2 h0
    exact pair_mem_filtered (sceneFingerprintValues ("phash")) s scenes v hmem hone h2 h0

/-- Witness for C3: the scene `c3S` has two files both fingerprinted
`oshash = xyz`; alone in the catalog it forms the returned group
`(xyz, [c3S, c3S])` of size 2. -/
theorem claim_C3_fingerprint_multiplicity_witness :
    c3S ∈ [c3S] ∧ ([c3S] : List Scene).count c3S = 1 ∧
    (sceneFingerprintValues ("oshash") c3S).count ("xyz") = 2 ∧
    (∀ x ∈ ([c3S] : List Scene), x ≠ c3S → ("xyz") ∉ sceneFingerprintValues ("oshash") x) ∧
    (("xyz"), [c3S, c3S]) ∈ find_duplicates_by_oshash [c3S] :=
  ⟨by decide, by decide, by decide, by decide,
   (claim_C3_fingerprint_multiplicity c3S [c3S] ("xyz") (by decide) (by decide)).1
     (by decide) (by decide)⟩

/-- C4: every selector outside {stashid, name, oshash, phash} makes the
dispatch fail with the not-found error (`HTTPException` 404,
"Duplicate type not found") and never yields an ok result with empty
groups. -/
theorem claim_C4_unknown_selector :
    ∀ (duplicate_type : String) (scenes : List Scene),
      duplicate_type ≠ "stashid" → duplicate_type ≠ "name" →
      duplicate_type ≠ "oshash" → duplicate_type ≠ "phash" →
      find_duplicates duplicate_type scenes =
        Except.error ⟨404, "Duplicate type not found"⟩ ∧
      ∀ (label : String) (groups : List (String × List Scene)),
        find_duplicates duplicate_type scenes ≠ Except.ok (label, groups) := by
  intro t scenes h1 h2 h3 h4
  have herr : find_duplicates t scenes = Except.error ⟨404, "Duplicate type not found"⟩ := by
    rw [find_duplicates, if_neg h1, if_neg h2, if_neg h3, if_neg h4]
  refine ⟨herr, fun label groups hok => ?_⟩
  rw [herr] at hok
  cases hok

/-- Witness for C4: the selector `md5` is rejected with the 404 error. -/
theorem claim_C4_unknown_selector_witness :
    ("md5" : String) ≠ "stashid" ∧ ("md5" : String) ≠ "name" ∧
    ("md5" : String) ≠ "oshash" ∧ ("md5" : String) ≠ "phash" ∧
    find_duplicates ("md5") [] = Except.error ⟨404, "Duplicate type not found"⟩ :=
  ⟨by decide, by decide, by decide, by decide,
   (claim_C4_unknown_selector ("md5") [] (by decide) (by decide) (by decide) (by decide)).1⟩

/-- Counterexample to C5: the claim says scenes with blank
(whitespace-only) titles are excluded entirely and never appear in any
returned group. In the code the check `if scene.title:` only drops the
empty title; the whitespace-only title " " is truthy, normalizes to the
empty string, and the two blank-titled scenes are returned as the group
keyed by the empty string. -/
theorem claim_C5_counterexample :
    c5A.title = (" ") ∧ c5B.title = (" ") ∧
    find_duplicates_by_name [c5A, c5B] = [((""), [c5A, c5B])] :=
  ⟨rfl, rfl, by decide⟩

/-- C5 amended: scenes whose title is the empty string are excluded
entirely (they appear in no returned group), and every bucketed scene is
bucketed under its title lowercased then trimmed; but a whitespace-only
title passes the emptiness check and is bucketed under the empty
string, so such scenes can appear in returned groups. -/
theorem claim_C5_amended :
    (∀ (scenes : List Scene) (p : String × List Scene) (x : Scene),
      p ∈ find_duplicates_by_name scenes → x ∈ p.2 → x ∈ scenes ∧ x.title ≠ "")
    ∧ (∀ (scenes : List Scene) (k : String) (x : Scene),
      x ∈ lookupGroup (titleGroups scenes) k → k = normalizeTitle x.title ∧ x.title ≠ "") := by
  constructor
  · intro scenes p x hp hx
    rw [find_duplicates_by_name] at hp
    rcases fuzzyLoop_members (titleGroups scenes) ((titleGroups scenes).map Prod.fst) [] []
        p x hp hx with ⟨q, hq, _⟩ | ⟨k, hk⟩
    · cases hq
    · have h := (mem_lookup_buildGroups titleKeys scenes k x).mp hk
      refine ⟨h.1, fun he => ?_⟩
      have h2 := h.2
      rw [titleKeys, if_pos he] at h2
      cases h2
  · intro scenes k x hk
    have h := (mem_lookup_buildGroups titleKeys scenes k x).mp hk
    have h2 := h.2
    by_cases he : x.title = ""
    · rw [titleKeys, if_pos he] at h2
      cases h2
    · rw [titleKeys, if_neg he] at h2
      have h3 : k = normalizeTitle x.title := by
        have h4 := List.mem_singleton.mp h2
        exact h4
      exact ⟨h3, he⟩

/-- Witness for the amended C5: the titles `Movie` and `movie ` both
normalize to `movie` and form one group; its member `c5W1` is a catalog
scene with a non-empty title. -/
theorem claim_C5_amended_witness :
    (("movie"), [c5W1, c5W2]) ∈ find_duplicates_by_name [c5W1, c5W2] ∧
    c5W1 ∈ ((("movie"), [c5W1, c5W2]) : String × List Scene).2 ∧
    (c5W1 ∈ ([c5W1, c5W2] : List Scene) ∧ c5W1.title ≠ "") :=
  ⟨by decide, by decide,
   claim_C5_amended.1 [c5W1, c5W2] (("movie"), [c5W1, c5W2]) c5W1 (by decide) (by decide)⟩

/-- Counterexample to C6: the claim says every returned group, including
fuzzy-merged ones, lists members in source-list encounter order. With
source order [c6s1, c6s2, c6s3], the fuzzy group seeded by `abcdefghij`
is `[c6s1, c6s3, c6s2]` (seed bucket first, merged bucket appended), so
the member at source position 2 precedes the member at source
position 1. -/
theorem claim_C6_counterexample :
    find_duplicates_by_name [c6s1, c6s2, c6s3] =
      [(("abcdefghij"), [c6s1, c6s3, c6s2])] ∧
    encounterOrdered [c6s1, c6s2, c6s3] [c6s1, c6s3, c6s2] = false :=
  ⟨by decide, by decide⟩

/-- C6 amended: for the identifier and fingerprint strategies every
returned group is an order-preserving selection from the source list (each
scene repeated as often as it carries the key), and so are the
exact-title buckets feeding the fuzzy phase; fuzzy-merged groups instead
concatenate the seed bucket with the merged buckets and need not follow
source order. -/
theorem claim_C6_amended :
    (∀ (scenes : List Scene) (p : String × List Scene),
      p ∈ find_duplicates_by_stashid scenes →
      p.2 = scenes.flatMap (fun s => List.replicate ((sceneStashIds s).count p.1) s))
    ∧ (∀ (kind : String) (scenes : List Scene) (p : String × List Scene),
      p ∈ find_duplicates_by_fingerprint kind scenes →
      p.2 = scenes.flatMap (fun s => List.replicate ((sceneFingerprintValues kind s).count p.1) s))
    ∧ (∀ (scenes : List Scene) (k : String),
      lookupGroup (titleGroups scenes) k =
        scenes.flatMap (fun s => List.replicate ((titleKeys s).count k) s)) := by
  refine ⟨?_, ?_, ?_⟩
  · intro scenes p hp
    exact snd_eq_flatMap_of_mem_filtered sceneStashIds scenes p hp
  · intro kind scenes p hp
    exact snd_eq_flatMap_of_mem_filtered (sceneFingerprintValues kind) scenes p hp
  · intro scenes k
    exact lookup_buildGroups titleKeys scenes k

/-- Witness for the amended C6: the identifier group `x` over
`[c6wA, c6wB]` is exactly the source-order selection. -/
theorem claim_C6_amended_witness :
    (("x"), [c6wA, c6wB]) ∈ find_duplicates_by_stashid [c6wA, c6wB] ∧
    [c6wA, c6wB] =
      ([c6wA, c6wB] : List Scene).flatMap
        (fun s => List.replicate ((sceneStashIds s).count ("x")) s) :=
  ⟨by decide, claim_C6_amended.1 [c6wA, c6wB] (("x"), [c6wA, c6wB]) (by decide)⟩

/-- Counterexample to C7: the claim says empty or blank (whitespace-only)
identifiers are ignored entirely and never form a group. The truthiness
test in the code only drops the empty string: the whitespace-only
identifier " " is truthy, and two scenes carrying it are returned as a
group keyed by " ". -/
theorem claim_C7_counterexample :
    ((" ") : String) ≠ "" ∧ pyStrip ((" ") : String).data = [] ∧
    ((" "), [c7bA, c7bB]) ∈ find_duplicates_by_stashid [c7bA, c7bB] :=
  ⟨by decide, by decide, by decide⟩

/-- C7 amended: identifiers that are empty or absent are ignored
entirely — the empty string never keys a returned group; identifiers are
compared by exact, case-sensitive string equality (each bucket is
exactly the source selection of scenes carrying that precise string);
and a scene is a member of every returned group whose key it carries, so
with N distinct non-empty identifiers it can appear in up to N groups.
Whitespace-only identifiers, however, are kept, not ignored. -/
theorem claim_C7_amended :
    (∀ (scenes : List Scene) (p : String × List Scene),
      p ∈ find_duplicates_by_stashid scenes → p.1 ≠ "")
    ∧ (∀ (scenes : List Scene) (k : String),
      lookupGroup (buildGroups sceneStashIds scenes) k =
        scenes.flatMap (fun s => List.replicate ((sceneStashIds s).count k) s))
    ∧ (∀ (scenes : List Scene) (s : Scene) (k : String) (l : List Scene),
      s ∈ scenes → (k, l) ∈ find_duplicates_by_stashid scenes →
      k ∈ sceneStashIds s → s ∈ l) := by
  refine ⟨?_, ?_, ?_⟩
  · intro scenes p hp
    exact key_ne_empty_of_mem_filtered sceneStashIds mem_sceneStashIds_ne_empty scenes p hp
  · intro scenes k
    exact lookup_buildGroups sceneStashIds scenes k
  · intro scenes s k l hs hp hk
    exact scene_mem_group_of_mem_filtered sceneStashIds scenes s k l hs hp hk

/-- Witness for the amended C7: two scenes share both identifiers `idA`
and `idB`; the returned group keyed `idA` has a non-empty key and
contains `c7wA`, and `c7wA` is likewise a member of the group keyed
`idB` — one scene in two groups. -/
theorem claim_C7_amended_witness :
    (("idA"), [c7wA, c7wB]) ∈ find_duplicates_by_stashid [c7wA, c7wB] ∧
    (("idA") : String) ≠ "" ∧
    c7wA ∈ ([c7wA, c7wB] : List Scene) ∧
    c7wA ∈ [c7wA, c7wB] ∧
    c7wA ∈ [c7wA, c7wB] :=
  ⟨by decide,
   claim_C7_amended.1 [c7wA, c7wB] (("idA"), [c7wA, c7wB]) (by decide),
   by decide,
   claim_C7_amended.2.2 [c7wA, c7wB] c7wA ("idA") [c7wA, c7wB] (by decide) (by decide)
     (by decide),
   claim_C7_amended.2.2 [c7wA, c7wB] c7wA ("idB") [c7wA, c7wB] (by decide) (by decide)
     (by decide)⟩

/-- Counterexample to C8: the claim says every request surface that
fetches routes the caller to setup when the configuration is absent or
still the placeholder. With no stored configuration, `get_config`
returns the placeholder endpoint, yet the `/duplicates` handler still
attempts the catalog fetch instead of redirecting. -/
theorem claim_C8_counterexample :
    (get_config none).stash_endpoint = defaultEndpoint ∧
    duplicatesAction (get_config none) = BoundaryAction.attemptFetch ∧
    duplicatesAction (get_config none) ≠ BoundaryAction.redirectToSettings :=
  ⟨rfl, rfl, by decide⟩

/-- C8 amended: only the main page guards the fetch — it redirects to
setup exactly when the stored endpoint is empty or equals the
placeholder (in particular when no configuration file exists); the
`/duplicates` surface attempts the fetch regardless of configuration. -/
theorem claim_C8_amended :
    (∀ config : StashConfig,
      rootAction config = BoundaryAction.redirectToSettings ↔
        (config.stash_endpoint = "" ∨ config.stash_endpoint = defaultEndpoint))
    ∧ rootAction (get_config none) = BoundaryAction.redirectToSettings
    ∧ (∀ config : StashConfig, duplicatesAction config = BoundaryAction.attemptFetch) := by
  refine ⟨?_, by decide, fun _ => rfl⟩
  intro config
  rw [rootAction]
  by_cases h : config.stash_endpoint = "" ∨ config.stash_endpoint = defaultEndpoint
  · simp [h]
  · simp [h]

/-- C9: in identifier grouping, a scene listing the same non-empty
identifier twice is appended twice to the bucket of that identifier; alone in
the catalog it forms a returned group of size 2 — entries are counted,
not distinct scenes, mirroring the fingerprint multiplicity quirk. -/
theorem claim_C9_identifier_multiplicity :
    ∀ (s : Scene) (scenes : List Scene) (k : String),
      s ∈ scenes → scenes.count s = 1 →
      (sceneStashIds s).count k = 2 →
      (∀ x ∈ scenes, x ≠ s → k ∉ sceneStashIds x) →
      (k, [s, s]) ∈ find_duplicates_by_stashid scenes := by
  intro s scenes k hmem hone h2 h0
  exact pair_mem_filtered sceneStashIds s scenes k hmem hone h2 h0

/-- Witness for C9: the scene `c9S` lists the stash id `dd` twice and
alone forms the returned group `(dd, [c9S, c9S])`. -/
theorem claim_C9_identifier_multiplicity_witness :
    c9S ∈ [c9S] ∧ ([c9S] : List Scene).count c9S = 1 ∧
    (sceneStashIds c9S).count ("dd") = 2 ∧
    (∀ x ∈ ([c9S] : List Scene), x ≠ c9S → ("dd") ∉ sceneStashIds x) ∧
    (("dd"), [c9S, c9S]) ∈ find_duplicates_by_stashid [c9S] :=
  ⟨by decide, by decide, by decide, by decide,
   claim_C9_identifier_multiplicity c9S [c9S] ("dd") (by decide) (by decide) (by decide)
     (by decide)⟩

/-- C10: in fingerprint grouping a fingerprint whose kind matches the
requested kind but whose value is missing or the empty string is
skipped entirely: inserting such a fingerprint into any file leaves the
bucket entries contributed by the scene unchanged, and the empty string never
keys a returned group of either kind. -/
theorem claim_C10_empty_value_skipped :
    (∀ (kind id title : String) (ids : List (Option String))
      (pre post : List FileRecord) (fps : List Fingerprint) (fp0 : Fingerprint),
      fp0.type = some kind → (fp0.value = none ∨ fp0.value = some ("")) →
      sceneFingerprintValues kind ⟨id, title, ids, pre ++ (⟨fp0 :: fps⟩ : FileRecord) :: post⟩ =
        sceneFingerprintValues kind ⟨id, title, ids, pre ++ (⟨fps⟩ : FileRecord) :: post⟩)
    ∧ (∀ (scenes : List Scene) (p : String × List Scene),
        p ∈ find_duplicates_by_oshash scenes → p.1 ≠ "")
    ∧ (∀ (scenes : List Scene) (p : String × List Scene),
        p ∈ find_duplicates_by_phash scenes → p.1 ≠ "") := by
  refine ⟨?_, ?_, ?_⟩
  · intro kind id title ids pre post fps fp0 ht hv
    rcases hv with hv | hv <;>
      simp [sceneFingerprintValues, List.flatMap_append, List.flatMap_cons,
        List.filterMap_cons, ht, hv]
  · intro scenes p hp
    exact key_ne_empty_of_mem_filtered (sceneFingerprintValues ("oshash"))
      (mem_sceneFingerprintValues_ne_empty ("oshash")) scenes p hp
  · intro scenes p hp
    exact key_ne_empty_of_mem_filtered (sceneFingerprintValues ("phash"))
      (mem_sceneFingerprintValues_ne_empty ("phash")) scenes p hp

/-- Witness for C10: adding an `oshash` fingerprint with empty value in
front of the fingerprint list of a file leaves the contributed
entries of the scene unchanged. -/
theorem claim_C10_empty_value_skipped_witness :
    (Fingerprint.mk (some ("oshash")) (some (""))).type = some ("oshash") ∧
    ((Fingerprint.mk (some ("oshash")) (some (""))).value = none ∨
      (Fingerprint.mk (some ("oshash")) (some (""))).value = some ("")) ∧
    sceneFingerprintValues ("oshash")
        ⟨("1"), ("t"), [],
         [⟨[⟨some ("oshash"), some ("")⟩, ⟨some ("oshash"), some ("abc")⟩]⟩]⟩ =
      sceneFingerprintValues ("oshash")
        ⟨("1"), ("t"), [], [⟨[⟨some ("oshash"), some ("abc")⟩]⟩]⟩ :=
  ⟨rfl, Or.inr rfl,
   claim_C10_empty_value_skipped.1 ("oshash") ("1") ("t") [] [] []
     [⟨some ("oshash"), some ("abc")⟩] ⟨some ("oshash"), some ("")⟩ rfl (Or.inr rfl)⟩
